import Mathlib

/-!
Verification of the email-productivity backend's session registry, prompt
template registry, AI pipeline glue and inbox endpoint, shallowly embedded
from `backend/app` (endpoints.py, prompt_service.py, llm_service.py,
email_service.py).  Time is modelled in seconds as `Int`, the in-memory
`sessions_db` dict as an association list whose keys are kept unique by
construction, and the relational prompt/email stores as lists of records.
-/

namespace EmailAgent

/-- Model of Python's `str.lower` (character-wise lowercasing). -/
def lowerStr (s : String) : String := ⟨s.data.map Char.toLower⟩

/-- Model of Python slicing `s[:n]`. -/
def takeStr (s : String) (n : Nat) : String := ⟨s.data.take n⟩

/-- Model of Python slicing `s[n:]`. -/
def dropStr (s : String) (n : Nat) : String := ⟨s.data.drop n⟩

/-- Model of Python's `str.strip` (drop whitespace at both ends). -/
def stripStr (s : String) : String :=
  ⟨((s.data.dropWhile Char.isWhitespace).reverse.dropWhile Char.isWhitespace).reverse⟩

/-- Character-list test used to model Python's `str.startswith` and `in`. -/
def leadsWith : List Char → List Char → Bool
  | [], _ => true
  | _ :: _, [] => false
  | a :: as, b :: bs => a == b && leadsWith as bs

/-- Whether `sub` occurs somewhere in the character list. -/
def occursIn (sub : List Char) : List Char → Bool
  | [] => leadsWith sub []
  | c :: rest => leadsWith sub (c :: rest) || occursIn sub rest

/-- Model of Python's `sub in s`. -/
def containsSub (s sub : String) : Bool := occursIn sub.data s.data

/-- Model of Python's `s.startswith(pre)`. -/
def startsWithStr (s pre : String) : Bool := leadsWith pre.data s.data

/-- Fuel-driven splitter behind `splitStr`; fuel is the input length, consumed
one character per step, so the recursion is structural and computable. -/
def splitOnFuel (sep : List Char) : Nat → List Char → List (List Char)
  | _, [] => [[]]
  | 0, s => [s]
  | Nat.succ fuel, c :: rest =>
      if leadsWith sep (c :: rest) && !sep.isEmpty then
        [] :: splitOnFuel sep fuel (rest.drop (sep.length - 1))
      else
        match splitOnFuel sep fuel rest with
        | [] => [[c]]
        | chunk :: chunks => (c :: chunk) :: chunks

/-- Model of Python's `s.split(sep)` for nonempty `sep`. -/
def splitStr (s sep : String) : List String :=
  (splitOnFuel sep.data s.data.length s.data).map String.mk

/-- Value stored in `sessions_db` by `create_access_token` (endpoints.py):
a user id together with the creation time in seconds. -/
structure Session where
  user_id : String
  created_at : Int
deriving Repr, DecidableEq

/-- The in-memory `sessions_db` dict: token to session.  Python dict keys are
unique; insertion below overwrites any previous binding of the same token. -/
abbrev SessionsDb := List (String × Session)

/-- The 24-hour session TTL, in seconds, from `verify_token` (endpoints.py line 72). -/
def sessionTTL : Int := 86400

/-- Embeds `create_access_token` (endpoints.py lines 60-66): store a fresh
session under `token`, overwriting any prior binding of that exact token. -/
def createAccessToken (db : SessionsDb) (token : String) (uid : String) (now : Int) : SessionsDb :=
  (token, { user_id := uid, created_at := now }) :: db.filter (fun kv => kv.1 != token)

/-- Embeds `verify_token` (endpoints.py lines 68-74): return the session only
when the token is present and strictly younger than the TTL. -/
def verifyToken (db : SessionsDb) (now : Int) (token : String) : Option Session :=
  match db.find? (fun kv => kv.1 == token) with
  | some kv => if now - kv.2.created_at < sessionTTL then some kv.2 else none
  | none => none

/-- Embeds the token-revocation body of `logout` (endpoints.py lines 238-239):
`if token in sessions_db: del sessions_db[token]`. -/
def revokeToken (db : SessionsDb) (token : String) : SessionsDb :=
  db.filter (fun kv => kv.1 != token)

/-- Embeds the Bearer-prefix stripping repeated in the handlers
(endpoints.py lines 91-94, 256-259, 298-301, ...): `authorization[7:]` when
the header starts with `Bearer `, the raw header otherwise. -/
def extractToken (authorization : String) : String :=
  if startsWithStr authorization "Bearer " then dropStr authorization 7
  else authorization

/-- Embeds the whole `logout` handler (endpoints.py lines 232-245): the token
is removed only when the header carries a `Bearer ` prefix. -/
def logoutEndpoint (db : SessionsDb) (authorization : Option String) : SessionsDb :=
  match authorization with
  | some a =>
      if startsWithStr a "Bearer " then revokeToken db (dropStr a 7) else db
  | none => db

/-- The operations that mutate `sessions_db`: login/register/refresh insert via
`create_access_token`, logout deletes. -/
inductive SessionOp where
  | create (token uid : String) (time : Int)
  | revoke (token : String)
deriving Repr, DecidableEq

def sessionStep (db : SessionsDb) (op : SessionOp) : SessionsDb :=
  match op with
  | .create token uid time => createAccessToken db token uid time
  | .revoke token => revokeToken db token

def runSessionOps (db : SessionsDb) (ops : List SessionOp) : SessionsDb :=
  ops.foldl sessionStep db

/-- Whether an operation installs a binding for `token` (a later login that
happens to reuse the same random token value). -/
def createsToken (op : SessionOp) (token : String) : Bool :=
  match op with
  | .create t _ _ => t == token
  | .revoke _ => false

/-- Whether `token` is a key of the session map. -/
def hasToken (db : SessionsDb) (token : String) : Bool :=
  db.any (fun kv => kv.1 == token)

theorem hasToken_eq_false_iff (db : SessionsDb) (token : String) :
    hasToken db token = false ↔ ∀ kv ∈ db, ¬ kv.1 = token := by
  simp [hasToken, List.any_eq_false]

theorem hasToken_filter_ne (db : SessionsDb) (token : String) :
    hasToken (db.filter (fun kv => kv.1 != token)) token = false := by
  apply (hasToken_eq_false_iff _ _).mpr
  intro kv hkv
  have h := List.of_mem_filter hkv
  simpa using h

theorem hasToken_revoke (db : SessionsDb) (token : String) :
    hasToken (revokeToken db token) token = false :=
  hasToken_filter_ne db token

theorem hasToken_step (db : SessionsDb) (op : SessionOp) (token : String)
    (hdb : hasToken db token = false) (hop : createsToken op token = false) :
    hasToken (sessionStep db op) token = false := by
  cases op with
  | create t uid time =>
      apply (hasToken_eq_false_iff _ _).mpr
      intro kv hkv
      rcases List.mem_cons.mp hkv with h | h
      · subst h
        intro hcontra
        have ht : t = token := hcontra
        simp only [createsToken] at hop
        rw [ht] at hop
        simp at hop
      · exact (hasToken_eq_false_iff db token).mp hdb kv (List.mem_of_mem_filter h)
  | revoke t =>
      apply (hasToken_eq_false_iff _ _).mpr
      intro kv hkv
      exact (hasToken_eq_false_iff db token).mp hdb kv (List.mem_of_mem_filter hkv)

theorem hasToken_runOps (ops : List SessionOp) (db : SessionsDb) (token : String)
    (hdb : hasToken db token = false)
    (hfresh : ∀ op ∈ ops, createsToken op token = false) :
    hasToken (runSessionOps db ops) token = false := by
  induction ops generalizing db with
  | nil => simpa [runSessionOps] using hdb
  | cons op tl ih =>
      simp only [runSessionOps, List.foldl_cons]
      exact ih (sessionStep db op)
        (hasToken_step db op token hdb (hfresh op (List.mem_cons_self _ _)))
        (fun o ho => hfresh o (List.mem_cons_of_mem _ ho))

theorem verifyToken_of_hasToken_false (db : SessionsDb) (now : Int) (token : String)
    (h : hasToken db token = false) : verifyToken db now token = none := by
  have hfind : db.find? (fun kv => kv.1 == token) = none := by
    apply List.find?_eq_none.mpr
    intro kv hkv
    have := (hasToken_eq_false_iff db token).mp h kv hkv
    simpa using this
  simp [verifyToken, hfind]

/-- C2: for a token recorded in the session map, `verify_token` returns its
session exactly when strictly less than the 24-hour TTL (86400 seconds) has
elapsed since the recorded creation time; at or after TTL elapse it returns
none, never a valid session. -/
theorem verify_token_ttl (db : SessionsDb) (now : Int) (token : String)
    (kv : String × Session)
    (hfind : db.find? (fun x => x.1 == token) = some kv) :
    (verifyToken db now token = some kv.2 ↔ now - kv.2.created_at < sessionTTL) ∧
    (sessionTTL ≤ now - kv.2.created_at → verifyToken db now token = none) := by
  constructor
  · constructor
    · intro hsome
      by_contra hge
      simp [verifyToken, hfind, hge] at hsome
    · intro hlt
      simp [verifyToken, hfind, hlt]
  · intro hge
    have : ¬ (now - kv.2.created_at < sessionTTL) := not_lt.mpr hge
    simp [verifyToken, hfind, this]

/-- Witness for `verify_token_ttl` at a concrete one-entry session map. -/
theorem verify_token_ttl_witness :
    (verifyToken [("tok", ⟨"u1", 0⟩)] 10 "tok" = some (⟨"u1", 0⟩ : Session) ↔
        (10 : Int) - 0 < sessionTTL) ∧
    (sessionTTL ≤ (10 : Int) - 0 → verifyToken [("tok", ⟨"u1", 0⟩)] 10 "tok" = none) :=
  verify_token_ttl [("tok", ⟨"u1", 0⟩)] 10 "tok" ("tok", ⟨"u1", 0⟩) rfl

/-- C3: once a token is revoked, any later sequence of session operations that
does not install that exact token again leaves every later lookup of it
returning none, at any time (in particular before its TTL would have elapsed);
moreover revocation is idempotent, and revoking a missing token leaves the map
unchanged (not an error). -/
theorem revoked_token_never_valid (db : SessionsDb) (token : String)
    (ops : List SessionOp) (now : Int)
    (hfresh : ∀ op ∈ ops, createsToken op token = false) :
    verifyToken (runSessionOps (revokeToken db token) ops) now token = none ∧
    revokeToken (revokeToken db token) token = revokeToken db token ∧
    (hasToken db token = false → revokeToken db token = db) := by
  refine ⟨?_, ?_, ?_⟩
  · exact verifyToken_of_hasToken_false _ now token
      (hasToken_runOps ops (revokeToken db token) token (hasToken_revoke db token) hfresh)
  · simp only [revokeToken, List.filter_filter]
    apply List.filter_congr
    intro kv _
    cases h : kv.1 != token <;> simp [h]
  · intro h
    apply List.filter_eq_self.mpr
    intro kv hkv
    have := (hasToken_eq_false_iff db token).mp h kv hkv
    simpa using this

/-- Witness for `revoked_token_never_valid`: revoke a live token, then run a
later login with a different token; the revoked token stays invalid. -/
theorem revoked_token_never_valid_witness :
    verifyToken
        (runSessionOps (revokeToken [("tok", ⟨"u1", 0⟩)] "tok")
          [SessionOp.create "other" "u2" 5]) 10 "tok" = none ∧
    revokeToken (revokeToken [("tok", ⟨"u1", 0⟩)] "tok") "tok" =
      revokeToken [("tok", ⟨"u1", 0⟩)] "tok" ∧
    (hasToken [("tok", ⟨"u1", 0⟩)] "tok" = false →
      revokeToken [("tok", ⟨"u1", 0⟩)] "tok" = [("tok", ⟨"u1", 0⟩)]) :=
  revoked_token_never_valid [("tok", ⟨"u1", 0⟩)] "tok" [SessionOp.create "other" "u2" 5] 10
    (by decide)

/-- Row of the prompt-template table.  The ORM model file is not part of the
sources; the fields follow spec section 3 (id, name, category, template text,
active flag, version counter, is-system flag), which is also exactly the set
of fields `prompt_service.py` reads and writes. -/
structure PromptTemplate where
  id : Nat
  name : String
  description : String
  category : String
  template : String
  is_active : Bool
  is_system : Bool
  version : Nat
deriving Repr, DecidableEq

abbrev PromptStore := List PromptTemplate

/-- Embeds `PromptService._deactivate_other_prompts` (prompt_service.py lines
194-210): clear the active flag of every active template of `category`, except
the one whose id is `excludeId` when given. -/
def deactivateOtherPrompts (store : PromptStore) (category : String)
    (excludeId : Option Nat) : PromptStore :=
  store.map fun p =>
    if p.category == category && p.is_active &&
        (match excludeId with | some i => p.id != i | none => true) then
      { p with is_active := false }
    else p

/-- Payload of `create_prompt`; `is_active` mirrors
`prompt_data.get('is_active', False)` (an absent flag reads as false). -/
structure PromptCreate where
  name : String
  description : String
  category : String
  template : String
  is_active : Bool
deriving Repr, DecidableEq

/-- The database assigns a primary key no existing row carries; modelled as one
past the maximum id in the store. -/
def freshId (store : PromptStore) : Nat :=
  store.foldr (fun p m => max p.id m) 0 + 1

/-- Embeds `PromptService.create_prompt` (prompt_service.py lines 116-134):
when the new template is requested active, first deactivate every other
template of its category, then insert the new row. -/
def createPrompt (store : PromptStore) (d : PromptCreate) : PromptStore × PromptTemplate :=
  let store1 := if d.is_active then deactivateOtherPrompts store d.category none else store
  let p : PromptTemplate :=
    { id := freshId store, name := d.name, description := d.description,
      category := d.category, template := d.template, is_active := d.is_active,
      is_system := false, version := 1 }
  (store1 ++ [p], p)

/-- Payload of `update_prompt`: each field is applied only when present, via
the `hasattr`/`setattr` loop of prompt_service.py lines 164-166. -/
structure PromptUpdate where
  name : Option String
  description : Option String
  category : Option String
  template : Option String
  is_active : Option Bool
deriving Repr, DecidableEq

/-- The `setattr` loop plus the unconditional `version += 1` of
`update_prompt` (prompt_service.py lines 164-169). -/
def applyUpdate (p : PromptTemplate) (d : PromptUpdate) : PromptTemplate :=
  { p with
    name := d.name.getD p.name
    description := d.description.getD p.description
    category := d.category.getD p.category
    template := d.template.getD p.template
    is_active := d.is_active.getD p.is_active
    version := p.version + 1 }

/-- Embeds `PromptService.update_prompt` (prompt_service.py lines 136-178):
look the row up by id (none when missing); when the update flips the active
flag from false to true, first deactivate the other templates of the row's
category; then apply the field updates to the row. -/
def updatePrompt (store : PromptStore) (pid : Nat) (d : PromptUpdate) :
    Option PromptStore :=
  match store.find? (fun p => p.id == pid) with
  | none => none
  | some p =>
      let store1 :=
        if d.is_active.getD false && !p.is_active then
          deactivateOtherPrompts store p.category (some pid)
        else store
      some (store1.map fun q => if q.id == pid then applyUpdate q d else q)

/-- Result of SQLAlchemy's `scalar_one_or_none`, which raises
`MultipleResultsFound` when the query matches more than one row. -/
inductive ScalarResult (α : Type) where
  | ok : Option α → ScalarResult α
  | multipleResultsFound : ScalarResult α
deriving Repr, DecidableEq

/-- Embeds `PromptService.get_active_prompt` (prompt_service.py lines 72-80):
the unique active template of a category via `scalar_one_or_none`. -/
def getActivePrompt (store : PromptStore) (category : String) :
    ScalarResult PromptTemplate :=
  match store.filter (fun p => p.category == category && p.is_active) with
  | [] => .ok none
  | [p] => .ok (some p)
  | _ => .multipleResultsFound

/-- The mutating prompt-registry calls reachable from the HTTP layer. -/
inductive PromptOp where
  | create : PromptCreate → PromptOp
  | update : Nat → PromptUpdate → PromptOp
deriving Repr, DecidableEq

def promptStep (store : PromptStore) (op : PromptOp) : PromptStore :=
  match op with
  | .create d => (createPrompt store d).1
  | .update pid d => (updatePrompt store pid d).getD store

def runPromptOps (store : PromptStore) (ops : List PromptOp) : PromptStore :=
  ops.foldl promptStep store

def isActiveIn (c : String) (p : PromptTemplate) : Bool :=
  p.category == c && p.is_active

/-- Number of active templates of category `c`. -/
def countActive (store : PromptStore) (c : String) : Nat :=
  store.countP (isActiveIn c)

/-- An operation that never moves a template across categories: every create,
and the updates whose payload leaves the category field alone. -/
def keepsCategory (op : PromptOp) : Bool :=
  match op with
  | .create _ => true
  | .update _ d => d.category.isNone

theorem countP_map_le {α : Type} (l : List α) (f : α → α) (p q : α → Bool)
    (h : ∀ x ∈ l, p (f x) = true → q x = true) :
    (l.map f).countP p ≤ l.countP q := by
  induction l with
  | nil => simp
  | cons a t ih =>
      have ht : (t.map f).countP p ≤ t.countP q :=
        ih (fun x hx => h x (List.mem_cons_of_mem _ hx))
      simp only [List.map_cons, List.countP_cons]
      cases hp : p (f a) with
      | true =>
          have hq := h a (List.mem_cons_self _ _) hp
          simp only [hp, hq, if_true]
          omega
      | false =>
          simp only [Bool.false_eq_true, if_false]
          split <;> omega

theorem countP_beq_le_one_of_nodup (l : List Nat) (h : l.Nodup) (n : Nat) :
    l.countP (fun i => i == n) ≤ 1 := by
  induction l with
  | nil => simp
  | cons a t ih =>
      rcases List.nodup_cons.mp h with ⟨ha, ht⟩
      rw [List.countP_cons]
      by_cases hb : a = n
      · subst hb
        have hz : t.countP (fun i => i == a) = 0 := by
          apply List.countP_eq_zero.mpr
          intro x hx hxx
          exact ha (by simpa using (eq_of_beq hxx) ▸ hx)
        simp [hz]
      · have hb' : (a == n) = false := by simpa using hb
        simp only [hb', if_false]
        simpa using ih ht

theorem deact_ids (s : PromptStore) (c : String) (ex : Option Nat) :
    (deactivateOtherPrompts s c ex).map (·.id) = s.map (·.id) := by
  simp only [deactivateOtherPrompts, List.map_map]
  apply List.map_congr_left
  intro p _
  split <;> · simp only [Function.comp_apply]; split <;> rfl

theorem deact_mem (s : PromptStore) (c : String) (ex : Option Nat) (x : PromptTemplate)
    (hx : x ∈ deactivateOtherPrompts s c ex) :
    ∃ y ∈ s, x.id = y.id ∧ x.category = y.category ∧
      (x.is_active = true → y.is_active = true) := by
  rcases List.mem_map.mp hx with ⟨y, hy, rfl⟩
  refine ⟨y, hy, ?_⟩
  split <;> simp

theorem countActive_deact_le (s : PromptStore) (c : String) (ex : Option Nat) (c' : String) :
    countActive (deactivateOtherPrompts s c ex) c' ≤ countActive s c' := by
  apply countP_map_le
  intro x _ hact
  split at hact
  · simp [isActiveIn] at hact
  · exact hact

theorem countActive_deact_self (s : PromptStore) (c : String) :
    countActive (deactivateOtherPrompts s c none) c = 0 := by
  apply List.countP_eq_zero.mpr
  intro a ha
  rcases List.mem_map.mp ha with ⟨p, _, rfl⟩
  intro hact
  split at hact
  · simp [isActiveIn] at hact
  · rename_i hcond
    simp only [Bool.and_true] at hcond
    exact hcond (by simpa [isActiveIn] using hact)

theorem id_lt_freshId (s : PromptStore) : ∀ p ∈ s, p.id < freshId s := by
  have aux : ∀ p ∈ s, p.id ≤ s.foldr (fun q m => max q.id m) 0 := by
    induction s with
    | nil => intro p hp; cases hp
    | cons a t ih =>
        intro p hp
        rcases List.mem_cons.mp hp with rfl | h
        · exact le_max_left _ _
        · exact le_trans (ih p h) (le_max_right _ _)
  intro p hp
  have := aux p hp
  unfold freshId
  omega

/-- Well-formedness maintained by the registry: primary keys are unique and
each category carries at most one active template. -/
def PromptWF (s : PromptStore) : Prop :=
  (s.map (·.id)).Nodup ∧ ∀ c, countActive s c ≤ 1

theorem createPrompt_store1_ids (s : PromptStore) (d : PromptCreate) :
    ((if d.is_active then deactivateOtherPrompts s d.category none else s).map (·.id)) =
      s.map (·.id) := by
  by_cases hd : d.is_active = true
  · simp [hd, deact_ids]
  · simp [hd]

theorem createPrompt_WF (s : PromptStore) (d : PromptCreate) (h : PromptWF s) :
    PromptWF (createPrompt s d).1 := by
  obtain ⟨hids, hinv⟩ := h
  constructor
  · simp only [createPrompt, List.map_append]
    rw [createPrompt_store1_ids, List.nodup_append]
    refine ⟨hids, by simp, ?_⟩
    intro a ha hb
    simp only [List.map_cons, List.map_nil, List.mem_cons, List.not_mem_nil, or_false] at hb
    rcases List.mem_map.mp ha with ⟨p, hp, rfl⟩
    have := id_lt_freshId s p hp
    omega
  · intro c
    simp only [createPrompt, countActive, List.countP_append]
    by_cases hd : d.is_active = true
    · simp only [hd, if_true]
      by_cases hc : d.category = c
      · subst hc
        have hz := countActive_deact_self s d.category
        simp only [countActive] at hz
        rw [hz]
        simp [List.countP_cons, isActiveIn, hd]
      · have hc' : (d.category == c) = false := by simpa using hc
        have h1 := countActive_deact_le s d.category none c
        have h2 := hinv c
        simp only [countActive] at h1 h2
        have h4 := le_trans h1 h2
        simpa [List.countP_cons, isActiveIn, hc'] using h4
    · have hd' : d.is_active = false := by
        cases hdb : d.is_active
        · rfl
        · exact absurd hdb hd
      have h2 := hinv c
      simp only [countActive] at h2
      simp only [hd', Bool.false_eq_true, if_false]
      simpa [List.countP_cons, isActiveIn] using h2

theorem applyUpdate_id (q : PromptTemplate) (d : PromptUpdate) :
    (applyUpdate q d).id = q.id := rfl

theorem applyUpdate_category_of_none (q : PromptTemplate) (d : PromptUpdate)
    (hcat : d.category = none) : (applyUpdate q d).category = q.category := by
  simp [applyUpdate, hcat]

theorem applyUpdate_active (q : PromptTemplate) (d : PromptUpdate) :
    (applyUpdate q d).is_active = d.is_active.getD q.is_active := rfl

theorem deact_some_eq (s : PromptStore) (c : String) (i : Nat) :
    deactivateOtherPrompts s c (some i) =
      s.map (fun p => if p.category == c && p.is_active && (p.id != i) then
        { p with is_active := false } else p) := rfl

theorem updMap_ids (l : PromptStore) (pid : Nat) (d : PromptUpdate) :
    ((l.map (fun q => if q.id == pid then applyUpdate q d else q)).map (·.id)) =
      l.map (·.id) := by
  rw [List.map_map]
  apply List.map_congr_left
  intro q _
  simp only [Function.comp_apply]
  split <;> rfl

theorem uniq_of_nodup_ids (s : PromptStore) (hids : (s.map (·.id)).Nodup)
    (p : PromptTemplate) (hp : p ∈ s) :
    ∀ x ∈ s, x.id = p.id → x = p := by
  intro x hx hxid
  exact List.inj_on_of_nodup_map hids hx hp hxid

theorem updatePrompt_WF (s : PromptStore) (pid : Nat) (d : PromptUpdate)
    (store' : PromptStore) (hcat : d.category = none) (hWF : PromptWF s)
    (hupd : updatePrompt s pid d = some store') : PromptWF store' := by
  obtain ⟨hids, hinv⟩ := hWF
  cases hfind : s.find? (fun q => q.id == pid) with
  | none => rw [updatePrompt, hfind] at hupd; exact absurd hupd (by simp)
  | some p =>
      have hp_mem : p ∈ s := List.mem_of_find?_eq_some hfind
      have hp_id : p.id = pid := by simpa using List.find?_some hfind
      have huniq : ∀ x ∈ s, x.id = pid → x = p := by
        intro x hx hxid
        exact uniq_of_nodup_ids s hids p hp_mem x hx (by rw [hxid, hp_id])
      rw [updatePrompt, hfind] at hupd
      simp only [Option.some.injEq] at hupd
      subst hupd
      by_cases hcond : (d.is_active.getD false && !p.is_active) = true
      · -- the false-to-true flip: deactivate-then-activate path
        rw [if_pos hcond]
        have hpa : p.is_active = false := by
          rcases Bool.and_eq_true_iff.mp hcond with ⟨_, h2⟩
          simpa using h2
        have hzero : ∀ x ∈ deactivateOtherPrompts s p.category (some pid),
            isActiveIn p.category x = false := by
          intro x hx
          rw [deact_some_eq] at hx
          rcases List.mem_map.mp hx with ⟨y, hy, rfl⟩
          by_cases hc2 : (y.category == p.category && y.is_active && (y.id != pid)) = true
          · rw [if_pos hc2]
            simp [isActiveIn]
          · rw [if_neg hc2]
            by_contra hact
            have hact' : isActiveIn p.category y = true := by
              cases h : isActiveIn p.category y
              · exact absurd h hact
              · rfl
            rcases Bool.and_eq_true_iff.mp hact' with ⟨hyc, hya⟩
            have hyid : y.id = pid := by
              by_contra hne
              exact hc2 (by simp [hyc, hya, isActiveIn, hne])
            have := huniq y hy hyid
            rw [this] at hya
            rw [hpa] at hya
            exact Bool.false_ne_true hya
        have hids1 : ((deactivateOtherPrompts s p.category (some pid)).map (·.id)).Nodup := by
          rw [deact_ids]; exact hids
        constructor
        · rw [updMap_ids, deact_ids]; exact hids
        · intro c
          by_cases hc : c = p.category
          · rw [hc]
            have h1 : ((deactivateOtherPrompts s p.category (some pid)).map
                  (fun q => if q.id == pid then applyUpdate q d else q)).countP
                  (isActiveIn p.category) ≤
                (deactivateOtherPrompts s p.category (some pid)).countP
                  (fun x => x.id == pid) := by
              apply countP_map_le
              intro x hx hact
              by_cases hxid : (x.id == pid) = true
              · exact hxid
              · rw [if_neg hxid] at hact
                rw [hzero x hx] at hact
                exact absurd hact (by simp)
            have h2 : ((deactivateOtherPrompts s p.category (some pid)).map
                  (·.id)).countP (fun i => i == pid) =
                (deactivateOtherPrompts s p.category (some pid)).countP
                  (fun x => x.id == pid) := List.countP_map _ _ _
            have h3 := countP_beq_le_one_of_nodup _ hids1 pid
            rw [h2] at h3
            exact le_trans h1 h3
          · have h1 : ((deactivateOtherPrompts s p.category (some pid)).map
                  (fun q => if q.id == pid then applyUpdate q d else q)).countP
                  (isActiveIn c) ≤
                (deactivateOtherPrompts s p.category (some pid)).countP
                  (isActiveIn c) := by
              apply countP_map_le
              intro x hx hact
              by_cases hxid : (x.id == pid) = true
              · exfalso
                rw [deact_some_eq] at hx
                rcases List.mem_map.mp hx with ⟨y, hy, rfl⟩
                have hyid : y.id = pid := by
                  by_cases hc2 : (y.category == p.category && y.is_active && (y.id != pid)) = true
                  · rw [if_pos hc2] at hxid; simpa using eq_of_beq hxid
                  · rw [if_neg hc2] at hxid; exact eq_of_beq hxid
                have hyp := huniq y hy hyid
                have hxcat : (if (y.category == p.category && y.is_active && (y.id != pid)) = true
                    then { y with is_active := false } else y).category = y.category := by
                  split <;> rfl
                rw [if_pos hxid] at hact
                have hucat : (applyUpdate (if (y.category == p.category && y.is_active &&
                    (y.id != pid)) = true then { y with is_active := false } else y)
                    d).category = y.category := by
                  rw [applyUpdate_category_of_none _ _ hcat, hxcat]
                rcases Bool.and_eq_true_iff.mp hact with ⟨hcc, _⟩
                rw [hucat] at hcc
                have hyc : y.category = c := by simpa using hcc
                exact hc (by rw [← hyc, hyp])
              · rw [if_neg hxid] at hact
                exact hact
            have h2 := countActive_deact_le s p.category (some pid) c
            have h3 := hinv c
            simp only [countActive] at h2 h3
            exact le_trans h1 (le_trans h2 h3)
      · -- no deactivation: the flag is absent, false, or already true
        rw [if_neg hcond]
        constructor
        · rw [updMap_ids]; exact hids
        · intro c
          have h1 : ((s.map (fun q => if q.id == pid then applyUpdate q d else q)).countP
                (isActiveIn c)) ≤ s.countP (isActiveIn c) := by
            apply countP_map_le
            intro x hx hact
            by_cases hxid : (x.id == pid) = true
            · have hxp := huniq x hx (eq_of_beq hxid)
              subst hxp
              rw [if_pos hxid] at hact
              rcases Bool.and_eq_true_iff.mp hact with ⟨hcc, hca⟩
              rw [applyUpdate_category_of_none _ _ hcat] at hcc
              rw [applyUpdate_active] at hca
              have hcond' : d.is_active.getD false = false ∨ x.is_active = true := by
                rcases Bool.and_eq_false_iff.mp (Bool.not_eq_true _ ▸ hcond) with h | h
                · exact Or.inl h
                · right; simpa using h
              simp only [isActiveIn, hcc, Bool.true_and]
              rcases hcond' with hgd | hxa
              · cases hda : d.is_active with
                | none => rw [hda] at hca; simpa using hca
                | some b =>
                    rw [hda] at hgd hca
                    simp only [Option.getD_some] at hgd hca
                    rw [hgd] at hca
                    exact absurd hca (by simp)
              · exact hxa
            · rw [if_neg hxid] at hact
              exact hact
          have h2 := hinv c
          simp only [countActive] at h2
          exact le_trans h1 h2

theorem promptStep_WF (s : PromptStore) (op : PromptOp) (h : PromptWF s)
    (hop : keepsCategory op = true) : PromptWF (promptStep s op) := by
  cases op with
  | create d => exact createPrompt_WF s d h
  | update pid d =>
      simp only [keepsCategory] at hop
      have hcat : d.category = none := Option.isNone_iff_eq_none.mp hop
      cases hu : updatePrompt s pid d with
      | none => simpa [promptStep, hu] using h
      | some store' =>
          have hwf := updatePrompt_WF s pid d store' hcat h hu
          simpa [promptStep, hu] using hwf

theorem runPromptOps_WF (ops : List PromptOp) (s : PromptStore) (h : PromptWF s)
    (hops : ∀ op ∈ ops, keepsCategory op = true) : PromptWF (runPromptOps s ops) := by
  induction ops generalizing s with
  | nil => simpa [runPromptOps] using h
  | cons op tl ih =>
      simp only [runPromptOps, List.foldl_cons]
      exact ih (promptStep s op)
        (promptStep_WF s op h (hops op (List.mem_cons_self _ _)))
        (fun o ho => hops o (List.mem_cons_of_mem _ ho))

theorem PromptWF_nil : PromptWF [] := by
  constructor
  · simp
  · intro c; simp [countActive]

/-- C1 (amended): for every category C, after any sequence of create/update
calls in which every activation goes through the deactivate-then-activate path
and no update call changes a template's category, at most one template of
category C is active.  (Activation in the embedded code always takes that
path: `create_prompt` deactivates peers when the new row is active, and
`update_prompt` deactivates peers exactly on a false-to-true flip.) -/
theorem prompt_category_invariant (ops : List PromptOp) (c : String)
    (hops : ∀ op ∈ ops, keepsCategory op = true) :
    countActive (runPromptOps [] ops) c ≤ 1 :=
  (runPromptOps_WF ops [] PromptWF_nil hops).2 c

/-- A concrete category-preserving trace used by the C1 witness: two active
creates in one category followed by an update flipping the first back on. -/
def c1WitnessOps : List PromptOp :=
  [.create { name := "T1", description := "", category := "cat",
             template := "", is_active := true },
   .create { name := "T2", description := "", category := "cat",
             template := "", is_active := true },
   .update 1 { name := none, description := none, category := none,
               template := none, is_active := some true }]

/-- Witness for `prompt_category_invariant` on the concrete trace `c1WitnessOps`. -/
theorem prompt_category_invariant_witness :
    (∀ op ∈ c1WitnessOps, keepsCategory op = true) ∧
    countActive (runPromptOps [] c1WitnessOps) "cat" ≤ 1 :=
  ⟨by decide, prompt_category_invariant c1WitnessOps "cat" (by decide)⟩

/-- An update payload that never touches the active flag: a trace of such
updates plus creates only ever activates through `create_prompt`, which is the
deactivate-then-activate path. -/
def updateKeepsActiveFlag (op : PromptOp) : Bool :=
  match op with
  | .create _ => true
  | .update _ dd => dd.is_active.isNone

/-- The trace refuting C1 as stated: both activations go through the
deactivate-then-activate path (they are creates with is_active = true; the
update never touches is_active), yet moving T2 into category A through the
update leaves two active templates in category A. -/
def c1CexOps : List PromptOp :=
  [.create { name := "T1", description := "", category := "A",
             template := "", is_active := true },
   .create { name := "T2", description := "", category := "B",
             template := "", is_active := true },
   .update 2 { name := none, description := none, category := some "A",
               template := none, is_active := none }]

/-- C1 counterexample: in `c1CexOps` every activation is a create through the
deactivate-then-activate path and no update touches is_active, yet category
"A" ends with two active templates, so the claimed bound of one fails. -/
theorem prompt_category_invariant_cex :
    c1CexOps.all updateKeepsActiveFlag = true ∧
    countActive (runPromptOps [] c1CexOps) "A" = 2 := by
  constructor
  · decide
  · decide

/-- The C4 scenario trace: create T1 active in category cat, then T2 active in
the same category, both through the atomic path of `create_prompt`. -/
def c4Ops : List PromptOp :=
  [.create { name := "T1", description := "", category := "cat",
             template := "", is_active := true },
   .create { name := "T2", description := "", category := "cat",
             template := "", is_active := true }]

/-- The row `create_prompt` inserts for the second create of `c4Ops`. -/
def c4T2Row : PromptTemplate :=
  { id := 2, name := "T2", description := "", category := "cat",
    template := "", is_active := true, is_system := false, version := 1 }

/-- C4: after `create_prompt` inserts a template with is_active = true, the
just-activated template is exactly what `get_active_prompt` returns for its
category (never an older one: every other template of the category was just
deactivated); in particular in the T1-then-T2 scenario `get_active("cat")`
returns T2 and T1's active flag is false. -/
theorem get_active_after_create (store : PromptStore) (d : PromptCreate)
    (h : d.is_active = true) :
    getActivePrompt (createPrompt store d).1 d.category =
      .ok (some (createPrompt store d).2) ∧
    getActivePrompt (runPromptOps [] c4Ops) "cat" = .ok (some c4T2Row) ∧
    (∀ p ∈ runPromptOps [] c4Ops, p.name = "T1" → p.is_active = false) := by
  refine ⟨?_, by decide, by decide⟩
  simp only [createPrompt, h, if_true]
  have hnil : (deactivateOtherPrompts store d.category none).filter
      (fun p => p.category == d.category && p.is_active) = [] := by
    apply List.filter_eq_nil_iff.mpr
    intro a ha
    have hz := List.countP_eq_zero.mp (countActive_deact_self store d.category) a ha
    simpa [isActiveIn] using hz
  have hone : List.filter (fun p => p.category == d.category && p.is_active)
      (deactivateOtherPrompts store d.category none ++
        [({ id := freshId store, name := d.name, description := d.description,
            category := d.category, template := d.template, is_active := true,
            is_system := false, version := 1 } : PromptTemplate)]) =
      [({ id := freshId store, name := d.name, description := d.description,
          category := d.category, template := d.template, is_active := true,
          is_system := false, version := 1 } : PromptTemplate)] := by
    rw [List.filter_append, hnil]
    simp
  simp [getActivePrompt, hone]

/-- A one-row store holding an older active template of category cat, for the
C4 witness. -/
def c4OldStore : PromptStore :=
  [{ id := 1, name := "Old", description := "", category := "cat",
     template := "", is_active := true, is_system := false, version := 1 }]

/-- The create payload of the C4 witness. -/
def c4NewCreate : PromptCreate :=
  { name := "New", description := "", category := "cat",
    template := "", is_active := true }

/-- Witness for `get_active_after_create` at a concrete store holding an older
active template of the same category. -/
theorem get_active_after_create_witness :
    getActivePrompt (createPrompt c4OldStore c4NewCreate).1 "cat" =
      .ok (some (createPrompt c4OldStore c4NewCreate).2) ∧
    getActivePrompt (runPromptOps [] c4Ops) "cat" = .ok (some c4T2Row) ∧
    (∀ p ∈ runPromptOps [] c4Ops, p.name = "T1" → p.is_active = false) :=
  get_active_after_create c4OldStore c4NewCreate rfl
/-- C5: frame behavior of `update_prompt`.  When the update flips is_active
from false to true, every other template of the updated row's category is
inactive afterwards (deactivate-then-activate).  When is_active is absent from
the payload, or is true while the row is already active, no other row of the
store is touched at all: every other template survives unchanged, its active
flag included. -/
theorem update_prompt_frame (store : PromptStore) (pid : Nat) (d : PromptUpdate)
    (p : PromptTemplate) (store' : PromptStore)
    (hfind : store.find? (fun q => q.id == pid) = some p)
    (hupd : updatePrompt store pid d = some store') :
    ((d.is_active = some true ∧ p.is_active = false) →
      ∀ q ∈ store', q.id ≠ pid → q.category = p.category → q.is_active = false) ∧
    ((d.is_active = none ∨ (d.is_active = some true ∧ p.is_active = true)) →
      ∀ q ∈ store, q.id ≠ pid → q ∈ store') := by
  rw [updatePrompt, hfind] at hupd
  simp only [Option.some.injEq] at hupd
  constructor
  · rintro ⟨hda, hpa⟩ q hq hqid hqcat
    have hcond : (d.is_active.getD false && !p.is_active) = true := by
      rw [hda, hpa]; rfl
    rw [if_pos hcond] at hupd
    subst hupd
    rcases List.mem_map.mp hq with ⟨x, hx, rfl⟩
    by_cases hxid : (x.id == pid) = true
    · exfalso
      rw [if_pos hxid] at hqid
      exact hqid (by simpa [applyUpdate_id] using eq_of_beq hxid)
    · rw [if_neg hxid] at hqid hqcat ⊢
      rw [deact_some_eq] at hx
      rcases List.mem_map.mp hx with ⟨y, _, rfl⟩
      by_cases hc2 : (y.category == p.category && y.is_active && (y.id != pid)) = true
      · rw [if_pos hc2] at hqid hqcat ⊢
      · rw [if_neg hc2] at hqid hqcat ⊢
        by_contra hact
        have hact' : y.is_active = true := by
          cases hya : y.is_active
          · exact absurd hya hact
          · rfl
        have hne : (y.id != pid) = true := by
          simpa using hqid
        exact hc2 (by simp [hqcat, hact', hne])
  · intro hcase q hq hqid
    have hcond : ¬ (d.is_active.getD false && !p.is_active) = true := by
      rcases hcase with h | ⟨h1, h2⟩
      · rw [h]; simp
      · rw [h1, h2]; simp
    rw [if_neg hcond] at hupd
    subst hupd
    have : (if q.id == pid then applyUpdate q d else q) = q := by
      rw [if_neg (by simpa using hqid)]
    exact this ▸ List.mem_map_of_mem _ hq

/-- A two-row store for the C5 witness: an active T1 and an inactive T2 of the
same category. -/
def c5Store : PromptStore :=
  [{ id := 1, name := "T1", description := "", category := "cat",
     template := "", is_active := true, is_system := false, version := 1 },
   { id := 2, name := "T2", description := "", category := "cat",
     template := "", is_active := false, is_system := false, version := 1 }]

/-- The update payload of the C5 witness: flip is_active on. -/
def c5Upd : PromptUpdate :=
  { name := none, description := none, category := none,
    template := none, is_active := some true }

/-- The inactive T2 row of `c5Store`, as found by the witness's lookup. -/
def c5T2Row : PromptTemplate :=
  { id := 2, name := "T2", description := "", category := "cat",
    template := "", is_active := false, is_system := false, version := 1 }

/-- Witness for `update_prompt_frame`: activating the inactive T2 of
`c5Store` through `update_prompt`. -/
theorem update_prompt_frame_witness :
    ((c5Upd.is_active = some true ∧ c5T2Row.is_active = false) →
      ∀ q ∈ (updatePrompt c5Store 2 c5Upd).getD [], q.id ≠ 2 →
        q.category = c5T2Row.category → q.is_active = false) ∧
    ((c5Upd.is_active = none ∨
        (c5Upd.is_active = some true ∧ c5T2Row.is_active = true)) →
      ∀ q ∈ c5Store, q.id ≠ 2 → q ∈ (updatePrompt c5Store 2 c5Upd).getD []) :=
  update_prompt_frame c5Store 2 c5Upd c5T2Row
    ((updatePrompt c5Store 2 c5Upd).getD []) (by decide) (by decide)

/-- The four canned categories of the mock categorization branch
(llm_service.py line 111). -/
def mockCategories : List String := ["Important", "Newsletter", "Spam", "To-Do"]

/-- The `json.dumps` output of the mock categorization branch
(llm_service.py lines 110-113): the category is picked by content length
modulo 4. -/
def categorizationMockResponse (emailContent : String) : String :=
  "\x7b\"category\": \"" ++ mockCategories.getD (emailContent.length % 4) "" ++
    "\", \"confidence\": 0.85\x7d"

/-- The `json.dumps` output of the mock action branch (llm_service.py
lines 115-124). -/
def actionMockResponse : String :=
  "\x7b\"tasks\": [\x7b\"task\": \"Review the document mentioned in email\", " ++
    "\"deadline\": \"2024-01-15\", \"priority\": \"medium\"\x7d]\x7d"

/-- Sender-name extraction of the mock reply branch (llm_service.py lines
127-135): last piece after `From:` of the first line containing it, the part
before `@` when present. -/
def extractSenderName (emailContent : String) : String :=
  if containsSub emailContent "From:" then
    match (splitStr emailContent "\n").find? (fun line => containsSub line "From:") with
    | some line =>
        let senderPart := stripStr ((splitStr line "From:").getLastD "")
        if containsSub senderPart "@" then (splitStr senderPart "@").headD ""
        else "there"
    | none => "there"
  else "there"

/-- The canned reply draft of the mock reply branch (llm_service.py lines
137-147). -/
def replyMockResponse (emailContent : String) : String :=
  "Dear " ++ extractSenderName emailContent ++
    ",\n\nThank you for your email. I have received your message and will review it carefully." ++
    "\n\nI appreciate you taking the time to reach out and will get back to you with a proper response soon." ++
    "\n\nBest regards,\n[Your Name]\n\n---\n[AI-generated draft - Mock response]"

/-- The canned summary of the mock summary branch (llm_service.py lines
149-151). -/
def summaryMockResponse (emailContent : String) : String :=
  "This email appears to be about: " ++
    takeStr emailContent (min 150 emailContent.length) ++
    "... The main points discussed require your attention and follow-up."

/-- The fallthrough mock answer (llm_service.py line 154). -/
def defaultMockResponse (prompt : String) : String :=
  "I\x27ve processed your request regarding: " ++ takeStr prompt 80 ++
    ". Based on the email content, here\x27s my analysis: This appears to be a " ++
    "message that requires your review and potential action."

/-- Embeds `LLMService._mock_processing` (llm_service.py lines 104-154): a
keyword scan over the lowercased prompt selects the canned branch.  The Python
body's only side effect is a sleep, so the result is a pure function of the
prompt and the email content. -/
def mockProcessing (prompt emailContent : String) : String :=
  let pl := lowerStr prompt
  if containsSub pl "categoriz" then categorizationMockResponse emailContent
  else if containsSub pl "action" || containsSub pl "task" then actionMockResponse
  else if containsSub pl "reply" || containsSub pl "draft" then
    replyMockResponse emailContent
  else if containsSub pl "summar" then summaryMockResponse emailContent
  else defaultMockResponse prompt

/-- C7: mock processing is deterministic for a fixed prompt and content — in
the embedding it is a pure function, so the same branch and output recur on
every call with the same pair — and for a prompt containing "categoriz" the
output is the canned JSON whose category is `mockCategories[len(content) % 4]`,
a value drawn from Important, Newsletter, Spam, To-Do. -/
theorem mock_categorization_branch (prompt content : String)
    (h : containsSub (lowerStr prompt) "categoriz" = true) :
    mockProcessing prompt content =
      "\x7b\"category\": \"" ++ mockCategories.getD (content.length % 4) "" ++
        "\", \"confidence\": 0.85\x7d" ∧
    mockCategories.getD (content.length % 4) "" ∈ mockCategories := by
  constructor
  · simp [mockProcessing, h, categorizationMockResponse]
  · have h4 : content.length % 4 = 0 ∨ content.length % 4 = 1 ∨
        content.length % 4 = 2 ∨ content.length % 4 = 3 := by omega
    rcases h4 with h0 | h0 | h0 | h0 <;> simp [h0, mockCategories]

/-- Witness for `mock_categorization_branch` with the default categorization
prompt wording and a four-character body. -/
theorem mock_categorization_branch_witness :
    mockProcessing "Categorize this email" "test" =
      "\x7b\"category\": \"" ++ mockCategories.getD ("test".length % 4) "" ++
        "\", \"confidence\": 0.85\x7d" ∧
    mockCategories.getD ("test".length % 4) "" ∈ mockCategories :=
  mock_categorization_branch "Categorize this email" "test" (by decide)

/-- JSON values, the possible results of the standard library's
`json.loads`. -/
inductive JsonValue where
  | obj : List (String × JsonValue) → JsonValue
  | arr : List JsonValue → JsonValue
  | str : String → JsonValue
  | num : Int → JsonValue
  | boolean : Bool → JsonValue
  | null : JsonValue

/-- The fallback wrapping of `process_single_email`:
`[{"task": raw, "deadline": None}]`. -/
def wrapRawTask (raw : String) : JsonValue :=
  .arr [.obj [("task", .str raw), ("deadline", .null)]]

/-- Embeds the action-item parsing of `EmailService.process_single_email`
(email_service.py lines 471-478).  The library parser `json.loads` is external
code and is passed in as a function returning none where Python would raise;
the surrounding try/except turns any parse failure into the wrapped raw text,
and raw outputs that do not start with a brace or bracket are wrapped without
being parsed at all. -/
def parseActionItems (jsonLoads : String → Option JsonValue) (raw : String) :
    JsonValue :=
  if startsWithStr (stripStr raw) "\x7b" || startsWithStr (stripStr raw) "[" then
    match jsonLoads raw with
    | some v => v
    | none => wrapRawTask raw
  else wrapRawTask raw

/-- C6: action-item parsing is total — for every parser behavior and every raw
provider output it returns a value, either the parsed JSON or the single-task
wrapping — and whenever the output is not parseable as a JSON object or array
(the parser fails, or the stripped text does not start with a brace or a
bracket and is never handed to the parser) the result is exactly
`[{task: raw, deadline: null}]`. -/
theorem parse_action_items_total (jsonLoads : String → Option JsonValue)
    (raw : String) :
    (parseActionItems jsonLoads raw = wrapRawTask raw ∨
      ∃ v, jsonLoads raw = some v ∧ parseActionItems jsonLoads raw = v) ∧
    (jsonLoads raw = none → parseActionItems jsonLoads raw = wrapRawTask raw) ∧
    ((startsWithStr (stripStr raw) "\x7b" = false ∧
        startsWithStr (stripStr raw) "[" = false) →
      parseActionItems jsonLoads raw = wrapRawTask raw) := by
  refine ⟨?_, ?_, ?_⟩
  · by_cases hs : (startsWithStr (stripStr raw) "\x7b" ||
        startsWithStr (stripStr raw) "[") = true
    · cases hl : jsonLoads raw with
      | none => exact Or.inl (by simp [parseActionItems, hs, hl])
      | some v => exact Or.inr ⟨v, rfl, by simp [parseActionItems, hs, hl]⟩
    · exact Or.inl (by simp [parseActionItems, hs])
  · intro h
    by_cases hs : (startsWithStr (stripStr raw) "\x7b" ||
        startsWithStr (stripStr raw) "[") = true
    · simp [parseActionItems, hs, h]
    · simp [parseActionItems, hs]
  · rintro ⟨h1, h2⟩
    simp [parseActionItems, h1, h2]

/-- Witness for `parse_action_items_total`: a parser that always fails and a
plain-text provider answer. -/
theorem parse_action_items_total_witness :
    (parseActionItems (fun _ => none) "no json here" =
        wrapRawTask "no json here" ∨
      ∃ v, (fun (_ : String) => (none : Option JsonValue)) "no json here" = some v ∧
        parseActionItems (fun _ => none) "no json here" = v) ∧
    ((fun (_ : String) => (none : Option JsonValue)) "no json here" = none →
      parseActionItems (fun _ => none) "no json here" =
        wrapRawTask "no json here") ∧
    ((startsWithStr (stripStr "no json here") "\x7b" = false ∧
        startsWithStr (stripStr "no json here") "[" = false) →
      parseActionItems (fun _ => none) "no json here" =
        wrapRawTask "no json here") :=
  parse_action_items_total (fun _ => none) "no json here"

/-- Embeds `verify_password` (endpoints.py lines 53-58): the passlib verifier
is external code that may raise, passed in as a function returning an error;
the wrapper catches every error and reports a failed verification. -/
def verify_password (impl : String → String → Except String Bool)
    (plain hashed : String) : Bool :=
  match impl plain hashed with
  | .ok b => b
  | .error _ => false

/-- C8: password verification never raises — it always produces a boolean,
the verifier's answer on success — and any internal error of the underlying
verifier yields false (fail-closed). -/
theorem verify_password_fail_closed (impl : String → String → Except String Bool)
    (plain hashed : String) :
    (∀ e, impl plain hashed = .error e → verify_password impl plain hashed = false) ∧
    (∀ b, impl plain hashed = .ok b → verify_password impl plain hashed = b) := by
  constructor <;> intro x hx <;> simp [verify_password, hx]

/-- Witness for `verify_password_fail_closed`: a verifier that always raises. -/
theorem verify_password_fail_closed_witness :
    (∀ e, (fun (_ _ : String) => (Except.error "boom" : Except String Bool))
        "pw" "hash" = .error e →
      verify_password (fun _ _ => .error "boom") "pw" "hash" = false) ∧
    (∀ b, (fun (_ _ : String) => (Except.error "boom" : Except String Bool))
        "pw" "hash" = .ok b →
      verify_password (fun _ _ => .error "boom") "pw" "hash" = b) :=
  verify_password_fail_closed (fun _ _ => .error "boom") "pw" "hash"

/-- A chat message submitted to the provider. -/
structure ChatMessage where
  role : String
  content : String
deriving Repr, DecidableEq

/-- The request parameters of one completion call. -/
structure CompletionRequest where
  model : String
  messages : List ChatMessage
  maxTokens : Nat
  temperature : ℚ
deriving Repr, DecidableEq

/-- Embeds the request built by `LLMService._process_with_openai`
(llm_service.py lines 53-70): optional system message, the rendered user
content, max_tokens=1000 and temperature=0.3. -/
def processWithOpenaiRequest (model : String) (systemMessage : Option String)
    (prompt emailContent : String) : CompletionRequest :=
  { model := model,
    messages :=
      (match systemMessage with
        | some m => [{ role := "system", content := m }]
        | none => []) ++
      [{ role := "user",
         content := "Email Content:\n" ++ emailContent ++ "\n\nInstruction: " ++ prompt }],
    maxTokens := 1000,
    temperature := 3 / 10 }

/-- The system message assembled by `chat_with_agent` (llm_service.py lines
160-163). -/
def chatAgentSystemMessage (emailContext : Option String) : String :=
  let base := "You are an intelligent email productivity assistant. Help users " ++
    "manage their inbox, summarize emails, extract tasks, and draft responses."
  match emailContext with
  | some ctx => base ++ "\n\nCurrent email context:\n" ++ ctx
  | none => base

/-- Embeds the request built by `LLMService.chat_with_agent` (llm_service.py
lines 165-175): system message plus history, max_tokens=500 and
temperature=0.7. -/
def chatWithAgentRequest (model : String) (messages : List ChatMessage)
    (emailContext : Option String) : CompletionRequest :=
  { model := model,
    messages :=
      { role := "system", content := chatAgentSystemMessage emailContext } :: messages,
    maxTokens := 500,
    temperature := 7 / 10 }

/-- Embeds the request built by `LLMService.generate_email_reply`
(llm_service.py lines 207-216): fixed system message, the rendered reply
prompt, max_tokens=500 and temperature=0.7. -/
def generateEmailReplyRequest (model : String) (prompt : String) : CompletionRequest :=
  { model := model,
    messages :=
      [{ role := "system",
         content := "You are a professional email assistant. Generate appropriate " ++
           "email replies in JSON format with \x27subject\x27 and \x27body\x27 fields." },
       { role := "user", content := prompt }],
    maxTokens := 500,
    temperature := 7 / 10 }

/-- C9: the sampling temperature is fixed per call site — 0.3 for the
extraction/categorization processing call, 0.7 for free-form chat and for
reply generation — independently of every input. -/
theorem llm_temperatures_fixed (model : String) (systemMessage : Option String)
    (prompt emailContent : String) (messages : List ChatMessage)
    (emailContext : Option String) (replyPrompt : String) :
    (processWithOpenaiRequest model systemMessage prompt emailContent).temperature
        = 3 / 10 ∧
    (chatWithAgentRequest model messages emailContext).temperature = 7 / 10 ∧
    (generateEmailReplyRequest model replyPrompt).temperature = 7 / 10 :=
  ⟨rfl, rfl, rfl⟩

/-- Row of the email table, restricted to the fields the inbox endpoint
reads: owner, sender, subject, body, timestamp (ISO text, as in the
serialized `to_dict` output the handler filters and sorts), category. -/
structure EmailRecord where
  id : Nat
  user_id : Option String
  sender : String
  subject : String
  body : String
  timestamp : String
  category : String
deriving Repr, DecidableEq

/-- Stable insertion of `x` into `l` before the first element not
`le`-below it; models the ordering produced by Python's stable sort. -/
def insertLe {α : Type} (le : α → α → Bool) (x : α) : List α → List α
  | [] => [x]
  | y :: ys => if le x y then x :: y :: ys else y :: insertLe le x ys

/-- Insertion sort with a boolean comparison. -/
def sortLe {α : Type} (le : α → α → Bool) : List α → List α
  | [] => []
  | x :: xs => insertLe le x (sortLe le xs)

/-- Embeds `EmailService.get_all_emails` (email_service.py lines 514-524):
every email, newest first, offset then limit, with no user filter. -/
def getAllEmails (store : List EmailRecord) (limit offset : Nat) :
    List EmailRecord :=
  (((sortLe (fun a b => (compare b.timestamp a.timestamp).isLE) store).drop
    offset).take limit)

/-- Embeds `get_user_inbox` (endpoints.py lines 283-335): authenticate the
header, fetch all emails (ignoring the session's user id), post-filter by
category unless it is absent or "all", filter by a case-insensitive search
over subject, sender and body, and sort by the requested order.  The error
value is the HTTP status code of the raised HTTPException. -/
def getUserInbox (sessions : SessionsDb) (now : Int) (store : List EmailRecord)
    (category : Option String) (search : Option String) (sortBy : String)
    (limit offset : Nat) (authorization : Option String) :
    Except Nat (List EmailRecord) :=
  match authorization with
  | none => .error 401
  | some auth =>
      match verifyToken sessions now (extractToken auth) with
      | none => .error 401
      | some _ =>
          let emails := getAllEmails store limit offset
          let filtered1 :=
            match category with
            | some c => if c != "all" then
                emails.filter (fun e => e.category == c)
              else emails
            | none => emails
          let filtered2 :=
            match search with
            | some s =>
                let sl := lowerStr s
                filtered1.filter (fun e =>
                  containsSub (lowerStr e.subject) sl ||
                  containsSub (lowerStr e.sender) sl ||
                  containsSub (lowerStr e.body) sl)
            | none => filtered1
          if sortBy == "newest" then
            .ok (sortLe (fun a b => (compare b.timestamp a.timestamp).isLE) filtered2)
          else if sortBy == "oldest" then
            .ok (sortLe (fun a b => (compare a.timestamp b.timestamp).isLE) filtered2)
          else if sortBy == "sender" then
            .ok (sortLe (fun a b => (compare a.sender b.sender).isLE) filtered2)
          else .ok filtered2

/-- C10: the inbox answer does not depend on whose valid session token is
presented.  For any two authorization headers whose extracted tokens resolve
to valid sessions of two different users, the endpoint returns the same email
list for the same query parameters over the same store, because the emails are
fetched without filtering by the session's user id. -/
theorem inbox_user_independent (sessions : SessionsDb) (now : Int)
    (store : List EmailRecord) (category : Option String) (search : Option String)
    (sortBy : String) (limit offset : Nat) (a1 a2 : String) (s1 s2 : Session)
    (h1 : verifyToken sessions now (extractToken a1) = some s1)
    (h2 : verifyToken sessions now (extractToken a2) = some s2)
    (_husers : s1.user_id ≠ s2.user_id) :
    getUserInbox sessions now store category search sortBy limit offset (some a1) =
      getUserInbox sessions now store category search sortBy limit offset (some a2) := by
  simp [getUserInbox, h1, h2]

/-- A two-user session map for the C10 witness. -/
def c10Sessions : SessionsDb :=
  [("tokA", { user_id := "user1", created_at := 0 }),
   ("tokB", { user_id := "user2", created_at := 0 })]

/-- A two-email store, one email per user, for the C10 witness. -/
def c10Store : List EmailRecord :=
  [{ id := 1, user_id := some "user1", sender := "alice@x.com",
     subject := "Hi", body := "one", timestamp := "2024-01-02T00:00:00",
     category := "Important" },
   { id := 2, user_id := some "user2", sender := "bob@x.com",
     subject := "Yo", body := "two", timestamp := "2024-01-01T00:00:00",
     category := "Newsletter" }]

/-- Witness for `inbox_user_independent`: two different users' Bearer tokens
receive the same inbox. -/
theorem inbox_user_independent_witness :
    getUserInbox c10Sessions 10 c10Store none none "newest" 50 0
        (some "Bearer tokA") =
      getUserInbox c10Sessions 10 c10Store none none "newest" 50 0
        (some "Bearer tokB") :=
  inbox_user_independent c10Sessions 10 c10Store none none "newest" 50 0
    "Bearer tokA" "Bearer tokB"
    { user_id := "user1", created_at := 0 }
    { user_id := "user2", created_at := 0 }
    (by decide) (by decide) (by decide)

end EmailAgent
